import Mathlib

/-
Verification of the ImagiNation concordance front end (imag-konk-pwa).

The development shallowly embeds the logic of src/src/App.tsx (the
componentized variant with category, author and year filters), together
with the JavaScript primitives it relies on (parseInt, encodeURIComponent,
the bold-span regular expression, Array/Set/sort, falsiness of the empty
string).  Stateful handlers are embedded as explicit state-passing
functions; JavaScript exceptions are embedded with Except.
-/

namespace ImagKonk

/-- A corpus metadata record, mirroring App.tsx's Metadata interface:
the urn is required, the remaining fields are optional strings
(absent JSON field = none). -/
structure Metadata where
  urn : String
  title : Option String := none
  author : Option String := none
  year : Option String := none
  category : Option String := none
  deriving DecidableEq

/-! ## JavaScript primitives -/

/-- Whitespace skipped by JavaScript parseInt (ASCII part). -/
def isJsSpace (c : Char) : Bool :=
  c = ' ' || c = '\t' || c = '\n' || c = '\r' || c = '\x0b' || c = '\x0c'

/-- Parse a nonempty run of leading decimal digits; none when there is no digit
(the NaN case of parseInt). -/
def parseDecDigits (cs : List Char) : Option Nat :=
  let ds := cs.takeWhile Char.isDigit
  if ds.isEmpty then none
  else some (ds.foldl (fun acc c => acc * 10 + (c.toNat - 48)) 0)

def isHexDigitJS (c : Char) : Bool :=
  c.isDigit || ('a' ≤ c && c ≤ 'f') || ('A' ≤ c && c ≤ 'F')

def hexVal (c : Char) : Nat :=
  if c.isDigit then c.toNat - 48
  else if 'a' ≤ c && c ≤ 'f' then c.toNat - 87
  else c.toNat - 55

def parseHexDigits (cs : List Char) : Option Nat :=
  let ds := cs.takeWhile isHexDigitJS
  if ds.isEmpty then none
  else some (ds.foldl (fun acc c => acc * 16 + hexVal c) 0)

/-- Model of the JavaScript builtin parseInt(s) (radix argument omitted):
skip leading whitespace, read an optional sign, then either a 0x/0X-prefixed
hexadecimal digit run or a decimal digit run; none models NaN (no digits). -/
def parseIntJS (s : String) : Option Int :=
  let cs := s.toList.dropWhile isJsSpace
  let signBody : Int × List Char :=
    match cs with
    | '-' :: rest => (-1, rest)
    | '+' :: rest => (1, rest)
    | rest => (1, rest)
  let mag : Option Nat :=
    match signBody.2 with
    | '0' :: 'x' :: rest => parseHexDigits rest
    | '0' :: 'X' :: rest => parseHexDigits rest
    | rest => parseDecDigits rest
  mag.map (fun n => signBody.1 * (n : Int))

/-- Characters left unescaped by JavaScript encodeURIComponent:
A-Z a-z 0-9 - _ . ! ~ * ( ) and the apostrophe (code 39). -/
def isUriUnreserved (c : Char) : Bool :=
  c.isAlphanum || c = '-' || c = '_' || c = '.' || c = '!' || c = '~' ||
    c = '*' || c = Char.ofNat 39 || c = '(' || c = ')'

/-- Uppercase hexadecimal digit for a value below 16. -/
def hexDigitChar (n : Nat) : Char :=
  if n < 10 then Char.ofNat (48 + n) else Char.ofNat (55 + n)

/-- Model of JavaScript encodeURIComponent: unreserved characters are kept,
every other character is replaced by the percent-encoding of its UTF-8
bytes (uppercase hexadecimal). -/
def encodeURIComponent (s : String) : String :=
  String.join (s.toList.map (fun c =>
    if isUriUnreserved c then String.mk [c]
    else String.mk ((String.utf8EncodeChar c).foldr
      (fun b acc => '%' :: hexDigitChar (b.toNat / 16) :: hexDigitChar (b.toNat % 16) :: acc) [])))

/-! ## The bold-span regular expression

App.tsx collects match spans with
Array.from(text.matchAll(/<b>(.*?)<\/b>/g)).map(match => match[1]).
The dot does not match a line terminator, the capture is lazy (shortest),
and matchAll scans left to right without overlap, advancing one position
after a failed attempt. -/

def isLineTerminator (c : Char) : Bool :=
  c = '\n' || c = '\r' || c = Char.ofNat 0x2028 || c = Char.ofNat 0x2029

/-- Lazy search for the closing bold tag: at each position first try to read
the closing tag, otherwise consume one non-line-terminator character into
the capture.  Returns the capture and the remainder after the closing tag. -/
def findBoldClose (acc : List Char) : List Char → Option (List Char × List Char)
  | [] => none
  | c :: rest =>
    if (c :: rest).take 4 = ['<', '/', 'b', '>'] then some (acc.reverse, (c :: rest).drop 4)
    else if isLineTerminator c then none
    else findBoldClose (c :: acc) rest

/-- One scan step per unit of fuel; the fuel is the length of the text, which
bounds the number of scan positions. -/
def scanBoldAux : Nat → List Char → List (List Char)
  | 0, _ => []
  | _ + 1, [] => []
  | fuel + 1, c :: rest =>
    if (c :: rest).take 3 = ['<', 'b', '>'] then
      match findBoldClose [] ((c :: rest).drop 3) with
      | some capRest => capRest.1 :: scanBoldAux fuel capRest.2
      | none => scanBoldAux fuel rest
    else scanBoldAux fuel rest

/-- The boldTerms computation of App.tsx's result mapping: the inner texts of
all bold-delimited spans, in document order. -/
def extractBoldTerms (text : String) : List String :=
  (scanBoldAux text.toList.length text.toList).map String.mk

/-! ## Result mapping (App.tsx lines 151-196) -/

/-- The concordance API response: a conc map (possibly absent in the JSON,
hence Option) and a urn map, both keyed by result key. -/
structure ConcResponse where
  conc : Option (List (String × String))
  urn : List (String × String)

/-- JavaScript property read on an object map: none models undefined. -/
def jsIndex (m : List (String × String)) (k : String) : Option String :=
  (m.find? (fun p => p.1 == k)).map Prod.snd

/-- String interpolation of a possibly-undefined JavaScript value. -/
def jsTemplateStr (o : Option String) : String :=
  match o with
  | none => "undefined"
  | some s => s

/-- Object.keys(o): throws a TypeError when o is undefined or null. -/
def objectKeysJS (o : Option (List (String × String))) : Except String (List String) :=
  match o with
  | none => Except.error "Cannot convert undefined or null to object"
  | some m => Except.ok (m.map Prod.fst)

/-- One rendered concordance entry: the raw highlighted text, the identifier,
the metadata record found for it (none on a lookup miss) and the derived
destination link. -/
structure RenderHit where
  text : String
  urn : Option String
  metadata : Option Metadata
  link : String
  deriving DecidableEq

/-- metadataArray.find(item => item.urn === urn): strict equality against
undefined is always false, otherwise compare the urn strings. -/
def findMeta (meta : List Metadata) (urn : Option String) : Option Metadata :=
  match urn with
  | none => none
  | some u => meta.find? (fun item => item.urn == u)

/-- The per-key body of the result mapper: read the highlighted text and the
identifier, look up the metadata record, extract the bold spans, join them
with single spaces, count them, and build the destination link
https://www.nb.no/items/URN?searchText="ENCODEDPHRASE"~COUNT
(the quotes are written literally in the template; only the phrase goes
through encodeURIComponent). -/
def renderHitFor (meta : List Metadata) (concMap urnMap : List (String × String))
    (key : String) : RenderHit :=
  let text := jsTemplateStr (jsIndex concMap key)
  let urn := jsIndex urnMap key
  let md := findMeta meta urn
  let boldTerms := extractBoldTerms text
  let searchText := String.intercalate " " boldTerms
  let tokenCount := boldTerms.length
  let urnLink := "https://www.nb.no/items/" ++ jsTemplateStr urn ++
    "?searchText=\"" ++ encodeURIComponent searchText ++ "\"~" ++ toString tokenCount
  { text := text, urn := urn, metadata := md, link := urnLink }

/-- Outcome of the response-handling part of performSearch: the no-results
indicator, a list of rendered hits, or an error surfaced through the catch
block (Search failed: MESSAGE). -/
inductive RenderOutcome
  | noResults
  | hits (l : List RenderHit)
  | errorDisplay (msg : String)
  deriving DecidableEq

/-- Response handling of App.tsx: the status template evaluates
Object.keys(conc.conc).length before the emptiness guard runs, so an absent
conc map throws there and the catch block displays the error; with a present
conc map, an empty key set yields the no-results indicator, otherwise each
key is mapped to a rendered hit. -/
def handleResponse (meta : List Metadata) (resp : ConcResponse) : RenderOutcome :=
  match objectKeysJS resp.conc with
  | Except.error msg => RenderOutcome.errorDisplay msg
  | Except.ok keys =>
    if keys.length = 0 then RenderOutcome.noResults
    else RenderOutcome.hits (keys.map (renderHitFor meta (resp.conc.getD []) resp.urn))

/-! ## The filter predicates (App.tsx lines 118-129) -/

/-- categoryMatch: true when the sentinel is selected, otherwise the record's
category must be present, nonempty (JavaScript truthiness) and selected. -/
def categoryMatch (selectedCategories : List String) (item : Metadata) : Bool :=
  selectedCategories.contains "All Categories" ||
    (match item.category with
     | none => false
     | some c => !(c == "") && selectedCategories.contains c)

/-- authorMatch: true when no author is selected, otherwise the record's
author must be present, nonempty and selected. -/
def authorMatch (selectedAuthors : List String) (item : Metadata) : Bool :=
  selectedAuthors.length == 0 ||
    (match item.author with
     | none => false
     | some a => !(a == "") && selectedAuthors.contains a)

/-- The string handed to parseInt: item.year || '0', so an absent or empty
(falsy) year field becomes the string 0. -/
def yearString (item : Metadata) : String :=
  match item.year with
  | none => "0"
  | some s => if s = "" then "0" else s

/-- yearMatch: parseInt(item.year || '0') compared against the bounds; a NaN
parse (none) fails both comparisons, hence false. -/
def yearMatch (yearLo yearHi : Int) (item : Metadata) : Bool :=
  match parseIntJS (yearString item) with
  | none => false
  | some y => decide (yearLo ≤ y) && decide (y ≤ yearHi)

/-- The user-chosen facets of a search. -/
structure SearchCriteria where
  selectedCategories : List String
  selectedAuthors : List String
  yearLo : Int
  yearHi : Int
  deriving DecidableEq

/-- The filter body of performSearch: conjunction of the three predicates. -/
def recordMatch (crit : SearchCriteria) (item : Metadata) : Bool :=
  categoryMatch crit.selectedCategories item &&
    authorMatch crit.selectedAuthors item &&
    yearMatch crit.yearLo crit.yearHi item

/-- filteredMetadata = metadataArray.filter(...). -/
def filterMetadata (crit : SearchCriteria) (meta : List Metadata) : List Metadata :=
  meta.filter (recordMatch crit)

/-! ## The pre-network part of performSearch (App.tsx lines 101-144) -/

/-- The outbound request body. -/
structure ConcBody where
  urns : List String
  query : String
  limit : Nat
  window : Nat
  html_formatting : Bool
  deriving DecidableEq

/-- The pieces of component state that performSearch writes before the
network call. -/
structure SearchState where
  isLoading : Bool
  status : String
  results : Option RenderOutcome
  deriving DecidableEq

/-- What the pre-network part of performSearch did: a blocking alert (early
return) or an issued request. -/
inductive SearchStep
  | alerted (msg : String)
  | requested (body : ConcBody)
  deriving DecidableEq

/-- performSearch up to the fetch call: the two validation guards alert and
return before any state write; past them the busy flag is set, the status
and results are reset, the metadata is filtered and the request body is
built with the surviving urns, the query, limit 1000, window 20 and
html_formatting true. -/
def performSearchPre (query : String) (meta : List Metadata) (crit : SearchCriteria)
    (st : SearchState) : SearchState × SearchStep :=
  if query = "" then (st, SearchStep.alerted "Please enter a search term")
  else if meta.length = 0 then
    (st, SearchStep.alerted "Metadata not loaded yet. Please try again.")
  else
    ({ isLoading := true, status := "Searching...", results := none },
     SearchStep.requested
       { urns := (filterMetadata crit meta).map Metadata.urn,
         query := query, limit := 1000, window := 20, html_formatting := true })

/-! ## Modal state and the concordance click handler (App.tsx lines 199-210) -/

structure ModalData where
  title : String
  author : String
  year : String
  category : String
  link : String
  deriving DecidableEq

structure ModalState where
  showModal : Bool
  modalData : Option ModalData
  deriving DecidableEq

/-- metadata.field || "Unknown ...": the empty string is falsy, so it is
replaced by the placeholder just like an absent field. -/
def jsOrDefault (v : Option String) (d : String) : String :=
  match v with
  | none => d
  | some s => if s = "" then d else s

/-- handleConcordanceClick: only when a metadata record was found does it
fill the modal data (with per-field placeholders) and show the modal;
with no record it does nothing. -/
def handleConcordanceClick (metadata : Option Metadata) (link : String)
    (st : ModalState) : ModalState :=
  match metadata with
  | some m =>
    { showModal := true,
      modalData := some
        { title := jsOrDefault m.title "Unknown Title",
          author := jsOrDefault m.author "Unknown Author",
          year := jsOrDefault m.year "Unknown Year",
          category := jsOrDefault m.category "Unknown Category",
          link := link } }
  | none => st

/-! ## Category selection handler (App.tsx lines 231-245) -/

/-- handleCategoryChange on the list of selected option values: when the
sentinel is among them the selection collapses to the sentinel alone. -/
def handleCategoryChange (selectedValues : List String) : List String :=
  if selectedValues.contains "All Categories" then ["All Categories"]
  else selectedValues

/-! ## Unique author derivation (App.tsx lines 83-88) -/

/-- Insertion into a JavaScript Set, iterated in insertion order:
first occurrences are kept. -/
def insertUniq (l : List String) (a : String) : List String :=
  if a ∈ l then l else l ++ [a]

/-- Array.from(new Set(l)). -/
def jsSetToArray (l : List String) : List String := l.foldl insertUniq []

/-- .map(item => item.author).filter(author => !!author): the defined,
nonempty author values in record order. -/
def truthyAuthors (meta : List Metadata) : List String :=
  (meta.map Metadata.author).filterMap (fun o =>
    match o with
    | none => none
    | some a => if a = "" then none else some a)

/-- The unique author list: truthy authors, deduplicated through a Set,
sorted ascending (default JavaScript string sort). -/
def uniqueAuthors (meta : List Metadata) : List String :=
  List.insertionSort (fun a b => a ≤ b) (jsSetToArray (truthyAuthors meta))

/-! ## Search-trigger event system (App.tsx lines 266-287 with performSearch)

The search button is rendered with disabled={isLoading}, so a click while
loading is a no-op; the Enter keypress handler calls performSearch
unconditionally; performSearch itself has no busy-flag check, so a passed
validation starts another network call; settling a call runs the finally
block, clearing the busy flag. -/

structure AppState where
  query : String
  metadataArray : List Metadata
  isLoading : Bool
  inFlight : Nat
  deriving DecidableEq

inductive UIEvent
  | clickSearch
  | pressEnter
  | settle
  deriving DecidableEq

/-- Entering performSearch: past the two validation guards, the busy flag is
set and one more network call is put in flight. -/
def startSearch (s : AppState) : AppState :=
  if s.query = "" then s
  else if s.metadataArray.length = 0 then s
  else { s with isLoading := true, inFlight := s.inFlight + 1 }

/-- One user-visible event step. -/
def uiStep (s : AppState) : UIEvent → AppState
  | UIEvent.clickSearch => if s.isLoading then s else startSearch s
  | UIEvent.pressEnter => startSearch s
  | UIEvent.settle =>
    if s.inFlight = 0 then s
    else { s with inFlight := s.inFlight - 1, isLoading := false }

def runEvents (s : AppState) (evs : List UIEvent) : AppState := evs.foldl uiStep s

/-- Invariant maintained by button-only interaction: at most one call in
flight, and none once the busy flag is clear. -/
def ClickOnlyInv (s : AppState) : Prop :=
  s.inFlight ≤ 1 ∧ (s.isLoading = false → s.inFlight = 0)

/-- Substring occurrence check, used to state which fragments the derived
destination link does and does not contain. -/
def subInfix (pat : List Char) : List Char → Bool
  | [] => pat.isPrefixOf []
  | c :: rest => pat.isPrefixOf (c :: rest) || subInfix pat rest

/-- True when pat occurs as a contiguous substring of s. -/
def strContains (s pat : String) : Bool := subInfix pat.toList s.toList

/-! ## Theorems -/

theorem mem_insertUniq (l : List String) (a b : String) :
    b ∈ insertUniq l a ↔ b ∈ l ∨ b = a := by
  unfold insertUniq
  by_cases h : a ∈ l
  · simp only [if_pos h]
    constructor
    · exact Or.inl
    · rintro (hb | rfl)
      · exact hb
      · exact h
  · simp [if_neg h]

theorem mem_foldl_insertUniq (l : List String) :
    ∀ acc b, b ∈ l.foldl insertUniq acc ↔ b ∈ acc ∨ b ∈ l := by
  induction l with
  | nil => intro acc b; simp
  | cons a l ih =>
    intro acc b
    rw [List.foldl_cons, ih, mem_insertUniq]
    simp only [List.mem_cons]
    tauto

theorem nodup_insertUniq (l : List String) (a : String) (h : l.Nodup) :
    (insertUniq l a).Nodup := by
  unfold insertUniq
  by_cases ha : a ∈ l
  · simpa [ha] using h
  · simp [ha, List.nodup_append, h]

theorem nodup_foldl_insertUniq (l : List String) :
    ∀ acc : List String, acc.Nodup → (l.foldl insertUniq acc).Nodup := by
  induction l with
  | nil => intro acc h; exact h
  | cons a l ih => intro acc h; exact ih _ (nodup_insertUniq acc a h)

theorem truthyFilter_eq_some (o : Option String) (a : String) :
    (match o with
     | none => none
     | some s => if s = "" then none else some s) = some a ↔ o = some a ∧ a ≠ "" := by
  cases o with
  | none => simp
  | some s =>
    by_cases hs : s = ""
    · subst hs
      simp only [if_pos rfl]
      constructor
      · intro h; cases h
      · rintro ⟨h1, h2⟩
        exact absurd (Option.some_inj.mp h1).symm h2
    · simp only [if_neg hs, Option.some_inj]
      constructor
      · rintro rfl; exact ⟨rfl, hs⟩
      · rintro ⟨h, _⟩; exact h

theorem mem_truthyAuthors (meta : List Metadata) (a : String) :
    a ∈ truthyAuthors meta ↔ a ≠ "" ∧ ∃ m ∈ meta, m.author = some a := by
  unfold truthyAuthors
  rw [List.mem_filterMap]
  constructor
  · rintro ⟨o, ho, heq⟩
    rcases (truthyFilter_eq_some o a).mp heq with ⟨rfl, hne⟩
    rcases List.mem_map.mp ho with ⟨m, hm, hma⟩
    exact ⟨hne, m, hm, hma⟩
  · rintro ⟨hne, m, hm, hma⟩
    exact ⟨m.author, List.mem_map.mpr ⟨m, hm, rfl⟩,
      (truthyFilter_eq_some m.author a).mpr ⟨hma, hne⟩⟩

theorem mem_uniqueAuthors (meta : List Metadata) (a : String) :
    a ∈ uniqueAuthors meta ↔ a ≠ "" ∧ ∃ m ∈ meta, m.author = some a := by
  unfold uniqueAuthors jsSetToArray
  rw [(List.perm_insertionSort _ _).mem_iff, mem_foldl_insertUniq]
  simp [mem_truthyAuthors]

/-- C8: for every list of metadata records, the derived unique-author list
contains exactly the nonempty author values of the records, has no
duplicates, and is sorted ascending. -/
theorem C8_unique_authors (meta : List Metadata) :
    (uniqueAuthors meta).Nodup ∧
      List.Sorted (fun a b : String => a ≤ b) (uniqueAuthors meta) ∧
      ∀ a : String, a ∈ uniqueAuthors meta ↔ a ≠ "" ∧ ∃ m ∈ meta, m.author = some a := by
  refine ⟨?_, ?_, fun a => mem_uniqueAuthors meta a⟩
  · exact (List.perm_insertionSort _ _).nodup_iff.mpr
      (nodup_foldl_insertUniq _ _ List.nodup_nil)
  · exact List.sorted_insertionSort _ _

/-- C10: the selected-category set either is exactly the sentinel singleton
or does not contain the sentinel at all. -/
theorem C10_sentinel_exclusive (selectedValues : List String) :
    handleCategoryChange selectedValues = ["All Categories"] ∨
      (handleCategoryChange selectedValues).contains "All Categories" = false := by
  unfold handleCategoryChange
  cases hb : selectedValues.contains "All Categories" with
  | true => left; simp
  | false => right; simpa using hb

/-- C7: an empty query, or an empty metadata store, makes performSearch alert
and return before any network request, leaving the search state unchanged. -/
theorem C7_validation_blocks (query : String) (meta : List Metadata)
    (crit : SearchCriteria) (st : SearchState)
    (h : query = "" ∨ meta = []) :
    (performSearchPre query meta crit st).1 = st ∧
      ∃ msg, (performSearchPre query meta crit st).2 = SearchStep.alerted msg := by
  rcases h with h | h
  · subst h
    exact ⟨rfl, "Please enter a search term", rfl⟩
  · subst h
    unfold performSearchPre
    by_cases hq : query = "" <;> simp [hq]

theorem C7_validation_blocks_witness :
    (performSearchPre "" [] ⟨["All Categories"], [], 1814, 1905⟩
        ⟨false, "Loaded metadata for 0 documents.", none⟩).1 =
        ⟨false, "Loaded metadata for 0 documents.", none⟩ ∧
      ∃ msg, (performSearchPre "" [] ⟨["All Categories"], [], 1814, 1905⟩
        ⟨false, "Loaded metadata for 0 documents.", none⟩).2 = SearchStep.alerted msg :=
  C7_validation_blocks "" [] ⟨["All Categories"], [], 1814, 1905⟩
    ⟨false, "Loaded metadata for 0 documents.", none⟩ (Or.inl rfl)

/-- C9: past the validation guards, the outbound payload is exactly the urns
of the records surviving the filter, the query, limit 1000, window 20 and
html_formatting true. -/
theorem C9_request_payload (query : String) (meta : List Metadata)
    (crit : SearchCriteria) (st : SearchState)
    (hq : query ≠ "") (hm : meta ≠ []) :
    (performSearchPre query meta crit st).2 =
      SearchStep.requested
        { urns := (meta.filter (recordMatch crit)).map Metadata.urn,
          query := query, limit := 1000, window := 20, html_formatting := true } := by
  unfold performSearchPre
  have hlen : ¬meta.length = 0 := fun h => hm (List.length_eq_zero.mp h)
  simp [hq, hlen, filterMetadata]

theorem C9_request_payload_witness :
    (performSearchPre "Norge" [⟨"u1", none, none, some "1850", none⟩]
        ⟨["All Categories"], [], 1814, 1905⟩ ⟨false, "ready", none⟩).2 =
      SearchStep.requested
        { urns := ["u1"], query := "Norge", limit := 1000,
          window := 20, html_formatting := true } :=
  (C9_request_payload "Norge" [⟨"u1", none, none, some "1850", none⟩]
    ⟨["All Categories"], [], 1814, 1905⟩ ⟨false, "ready", none⟩
    (by decide) (by decide)).trans (by decide)

/-- C2 counterexample: with the default criteria a record with no year field
is rejected by the filter (its year string becomes 0, outside 1814-1905),
so the conjunction of the three predicates does not admit every record and
the filter is not the identity. -/
theorem C2_counterexample :
    recordMatch ⟨["All Categories"], [], 1814, 1905⟩ ⟨"u1", none, none, none, none⟩ = false ∧
      filterMetadata ⟨["All Categories"], [], 1814, 1905⟩ [⟨"u1", none, none, none, none⟩] ≠
        [⟨"u1", none, none, none, none⟩] := by
  exact ⟨rfl, by decide⟩

/-- C2 amended: with the default criteria the category and author predicates
admit every record, and the filter admits a record exactly when its year
predicate does (its year string parses into 1814-1905). -/
theorem C2_amended_default_filter (item : Metadata) :
    categoryMatch ["All Categories"] item = true ∧
      authorMatch [] item = true ∧
      (recordMatch ⟨["All Categories"], [], 1814, 1905⟩ item = true ↔
        yearMatch 1814 1905 item = true) :=
  ⟨rfl, rfl, Iff.rfl⟩

/-- C3 counterexample: a record whose year is the non-numeric string abc is
rejected by the year predicate even on a range containing 0, because
parseInt yields NaN, not 0. -/
theorem C3_counterexample :
    yearMatch 0 5 ⟨"u1", none, none, some "abc", none⟩ = false := rfl

/-- C3 amended: a missing or empty year field is treated as the integer 0
(admitted exactly by ranges containing 0), while a year string with no
parseable digits yields NaN and is rejected by every range. -/
theorem C3_amended_year_parse (item : Metadata) (yearLo yearHi : Int) :
    (item.year = none ∨ item.year = some "" →
      (yearMatch yearLo yearHi item = true ↔ yearLo ≤ 0 ∧ 0 ≤ yearHi)) ∧
    (parseIntJS (yearString item) = none → yearMatch yearLo yearHi item = false) := by
  constructor
  · intro h
    have hy : yearString item = "0" := by
      rcases h with h | h <;> simp [yearString, h]
    unfold yearMatch
    rw [hy]
    have h0 : parseIntJS "0" = some 0 := rfl
    rw [h0]
    simp
  · intro h
    unfold yearMatch
    rw [h]

theorem C3_amended_year_parse_witness :
    (yearMatch 0 0 ⟨"u1", none, none, none, none⟩ = true ↔ (0 : Int) ≤ 0 ∧ (0 : Int) ≤ 0) ∧
      yearMatch 0 5 ⟨"u2", none, none, some "abc", none⟩ = false :=
  ⟨(C3_amended_year_parse ⟨"u1", none, none, none, none⟩ 0 0).1 (Or.inl rfl),
   (C3_amended_year_parse ⟨"u2", none, none, some "abc", none⟩ 0 5).2 rfl⟩

/-- C1: with a present but empty conc map the handler yields the no-results
indicator, but with an absent conc map the status template's
Object.keys(conc.conc) call throws before the emptiness guard can run and
the catch block surfaces the error instead of the indicator. -/
theorem C1_conc_absent_vs_empty :
    handleResponse [] ⟨some [], []⟩ = RenderOutcome.noResults ∧
      handleResponse [] ⟨none, []⟩ =
        RenderOutcome.errorDisplay "Cannot convert undefined or null to object" :=
  ⟨rfl, rfl⟩

/-- C4 counterexample: the destination link derived for the highlighted text
before bold-Norge after does not contain the percent-encoded substring
searchText=%22Norge%22~1, because the quotes are written literally into the
template and only the phrase between them is URL-encoded. -/
theorem C4_counterexample :
    strContains (renderHitFor [] [("0", "before <b>Norge</b> after")]
      [("0", "URN123")] "0").link "searchText=%22Norge%22~1" = false := by
  decide

/-- C4 amended: span extraction on the example yields the single span Norge,
phrase Norge, count 1, and the link contains searchText="Norge"~1 with
literal quotes; in general the link is the library items URL for the
identifier with the URL-encoded space-joined spans between literal quotes
followed by a tilde and the span count. -/
theorem C4_amended_link_shape :
    extractBoldTerms "before <b>Norge</b> after" = ["Norge"] ∧
    String.intercalate " " (extractBoldTerms "before <b>Norge</b> after") = "Norge" ∧
    (extractBoldTerms "before <b>Norge</b> after").length = 1 ∧
    strContains (renderHitFor [] [("0", "before <b>Norge</b> after")]
      [("0", "URN123")] "0").link "searchText=\"Norge\"~1" = true ∧
    ∀ meta concMap urnMap key,
      (renderHitFor meta concMap urnMap key).link =
        "https://www.nb.no/items/" ++ jsTemplateStr (jsIndex urnMap key) ++
          "?searchText=\"" ++
          encodeURIComponent (String.intercalate " "
            (extractBoldTerms (jsTemplateStr (jsIndex concMap key)))) ++
          "\"~" ++
          toString (extractBoldTerms (jsTemplateStr (jsIndex concMap key))).length := by
  refine ⟨rfl, rfl, rfl, by decide, ?_⟩
  intro meta concMap urnMap key
  rfl

/-- C5 counterexample: for a hit whose identifier is absent from the loaded
store, clicking it leaves the modal hidden and the modal data empty, so no
detail view with placeholder fields is shown. -/
theorem C5_counterexample :
    handleConcordanceClick
        (findMeta [⟨"a", some "T", some "A", some "1850", some "Diverse"⟩] (some "b"))
        "link" ⟨false, none⟩ = ⟨false, none⟩ := rfl

/-- C5 amended: a hit whose identifier is absent from the store is still
mapped and rendered (with no metadata record attached), but its click
handler is a no-op, so no detail view is shown at all; the Unknown
placeholders appear only when a record is found whose individual fields are
missing. -/
theorem C5_absent_identifier (meta : List Metadata) (u key text link : String)
    (st : ModalState) (h : ∀ m ∈ meta, m.urn ≠ u) :
    handleResponse meta ⟨some [(key, text)], [(key, u)]⟩ =
      RenderOutcome.hits [renderHitFor meta [(key, text)] [(key, u)] key] ∧
    (renderHitFor meta [(key, text)] [(key, u)] key).metadata = none ∧
    handleConcordanceClick none link st = st ∧
    handleConcordanceClick (some ⟨u, none, none, none, none⟩) link st =
      ⟨true, some ⟨"Unknown Title", "Unknown Author", "Unknown Year",
        "Unknown Category", link⟩⟩ := by
  refine ⟨rfl, ?_, rfl, rfl⟩
  have hj : jsIndex [(key, u)] key = some u := by
    simp [jsIndex]
  show findMeta meta (jsIndex [(key, u)] key) = none
  rw [hj]
  unfold findMeta
  rw [List.find?_eq_none]
  intro m hm
  simpa using h m hm

theorem C5_absent_identifier_witness :
    handleResponse [⟨"a", none, none, none, none⟩]
        ⟨some [("0", "x <b>y</b> z")], [("0", "b")]⟩ =
      RenderOutcome.hits [renderHitFor [⟨"a", none, none, none, none⟩]
        [("0", "x <b>y</b> z")] [("0", "b")] "0"] ∧
    (renderHitFor [⟨"a", none, none, none, none⟩]
      [("0", "x <b>y</b> z")] [("0", "b")] "0").metadata = none ∧
    handleConcordanceClick none "L" ⟨false, none⟩ = ⟨false, none⟩ ∧
    handleConcordanceClick (some ⟨"b", none, none, none, none⟩) "L" ⟨false, none⟩ =
      ⟨true, some ⟨"Unknown Title", "Unknown Author", "Unknown Year",
        "Unknown Category", "L"⟩⟩ :=
  C5_absent_identifier [⟨"a", none, none, none, none⟩] "b" "0" "x <b>y</b> z" "L"
    ⟨false, none⟩ (by decide)

theorem uiStep_clickOnlyInv (s : AppState) (e : UIEvent)
    (he : e ≠ UIEvent.pressEnter) (h : ClickOnlyInv s) : ClickOnlyInv (uiStep s e) := by
  cases e with
  | pressEnter => exact absurd rfl he
  | clickSearch =>
    show ClickOnlyInv (if s.isLoading then s else startSearch s)
    by_cases hl : s.isLoading
    · simpa [hl] using h
    · have hl0 : s.isLoading = false := by simpa using hl
      have hf : s.inFlight = 0 := h.2 hl0
      rw [if_neg hl]
      unfold startSearch
      by_cases hq : s.query = ""
      · simpa [hq] using h
      · rw [if_neg hq]
        by_cases hm : s.metadataArray.length = 0
        · simpa [hm] using h
        · rw [if_neg hm]
          exact ⟨by simp [hf], by intro hcontra; simp at hcontra⟩
  | settle =>
    show ClickOnlyInv (if s.inFlight = 0 then s else
      { s with inFlight := s.inFlight - 1, isLoading := false })
    by_cases hz : s.inFlight = 0
    · simpa [hz] using h
    · rw [if_neg hz]
      have h1 : s.inFlight ≤ 1 := h.1
      refine ⟨?_, fun _ => ?_⟩
      · show s.inFlight - 1 ≤ 1
        omega
      · show s.inFlight - 1 = 0
        omega

theorem runEvents_clickOnlyInv (evs : List UIEvent) :
    ∀ s : AppState, (∀ e ∈ evs, e ≠ UIEvent.pressEnter) → ClickOnlyInv s →
      ClickOnlyInv (runEvents s evs) := by
  induction evs with
  | nil => intro s _ h; exact h
  | cons e evs ih =>
    intro s hall h
    exact ih (uiStep s e)
      (fun x hx => hall x (List.mem_cons_of_mem e hx))
      (uiStep_clickOnlyInv s e (hall e (List.mem_cons_self e evs)) h)

/-- C6 counterexample: from an idle loaded state, two rapid Enter presses put
two network calls in flight, because the Enter handler calls performSearch
without consulting the busy flag (only the button is disabled). -/
theorem C6_counterexample :
    (runEvents ⟨"Norge", [⟨"u1", none, none, none, none⟩], false, 0⟩
      [UIEvent.pressEnter, UIEvent.pressEnter]).inFlight = 2 := rfl

/-- C6 amended: at most one call is in flight under button-only triggering
(the disabled attribute guards clicks), for any number of clicks and
settlements; the guarantee does not extend to Enter-key triggers. -/
theorem C6_click_guard (evs : List UIEvent) (s : AppState)
    (hs : s.inFlight = 0) (hall : ∀ e ∈ evs, e ≠ UIEvent.pressEnter) :
    (runEvents s evs).inFlight ≤ 1 :=
  (runEvents_clickOnlyInv evs s hall ⟨by omega, fun _ => hs⟩).1

theorem C6_click_guard_witness :
    (runEvents ⟨"Norge", [⟨"u1", none, none, none, none⟩], false, 0⟩
      [UIEvent.clickSearch, UIEvent.clickSearch, UIEvent.settle,
        UIEvent.clickSearch]).inFlight ≤ 1 :=
  C6_click_guard [UIEvent.clickSearch, UIEvent.clickSearch, UIEvent.settle,
      UIEvent.clickSearch]
    ⟨"Norge", [⟨"u1", none, none, none, none⟩], false, 0⟩ rfl (by decide)

end ImagKonk
